import Mathlib

/-!
Shallow embedding of the real-time chat delivery subsystem of the
medicore backend (`app/modules/chat/`): the connection manager
(`manager.py`), the history/read-state service (`service.py`) and the
per-message handling loop of the websocket endpoint (`router.py`).

Conventions of the embedding:
* `ChatMessage` rows (`models.py`) become the `Message` structure; the
  database table is a `List Message`, appended in insertion order;
  `created_at` timestamps are natural numbers assigned by the store.
* The manager's `active_connections` dict (user id -> websocket) becomes
  an insertion-ordered association list `Registry`; Python dict
  assignment keeps the position of an overwritten key, `del` removes it,
  and `.values()` iterates in insertion order, which the operations below
  mirror.
* Channel pushes (`websocket.send_json`) can fail at runtime (peer went
  away); a failure oracle `fails : Nat -> Bool` says which channel
  handles raise when pushed to.  A raised push is an exception that
  propagates exactly as in the Python control flow.
* One iteration of the websocket receive loop is the function
  `websocketStep`; it returns the new store plus the ordered list of
  observable events (persist, commit, channel pushes, error payload sent
  back to the sender) that the iteration performed.
-/

namespace MediChat

/-- A persisted chat message row (`ChatMessage` in `models.py`).
`recipient_id = none` denotes a broadcast message. -/
structure Message where
  id : Nat
  sender_id : Nat
  recipient_id : Option Nat
  content : String
  is_read : Bool
  created_at : Nat
deriving DecidableEq

/-- The validated inbound payload (`MessageCreate` in `schemas.py`). A
value of this type stands for a payload that already passed JSON parsing
and pydantic validation. -/
structure MessageCreate where
  content : String
  recipient_id : Option Nat
deriving DecidableEq

/-- The outbound delivered payload built by the websocket endpoint from
the persisted row (`response_payload` in `router.py`). -/
structure Payload where
  id : Nat
  sender_id : Nat
  sender_name : String
  content : String
  recipient_id : Option Nat
  created_at : Nat
deriving DecidableEq

/-- A user row, as far as the chat module reads it (`User.id`,
`User.full_name`). -/
structure UserRec where
  id : Nat
  full_name : String
deriving DecidableEq

/-- Observable events of one iteration of the websocket receive loop, in
program order. -/
inductive Event where
  /-- `service.create_chat_message` added this row to the session. -/
  | persist (m : Message)
  /-- `db.commit()` made the row durable. -/
  | commit
  /-- A push of `p` on channel handle `ch`; `ok = false` means the push
  raised (channel closed concurrently). -/
  | push (ch : Nat) (p : Payload) (ok : Bool)
  /-- The endpoint sent the generic error payload
  `\x7b"error": "Invalid message format or server error"\x7d` back on
  the sender's own websocket. -/
  | errorToSender
deriving DecidableEq

/-- The manager's `active_connections` dictionary: user id paired with
the channel handle of that user's websocket, in insertion order. -/
abbrev Registry := List (Nat × Nat)

/-- `ConnectionManager.connect` (after the accept): dict assignment
`self.active_connections[user_id] = websocket`.  Overwriting an existing
key keeps its position, a new key is appended. -/
def connect (r : Registry) (u ch : Nat) : Registry :=
  if r.any (fun e => e.1 == u) then
    r.map (fun e => if e.1 == u then (u, ch) else e)
  else
    r ++ [(u, ch)]

/-- `ConnectionManager.disconnect`: `if user_id in ...: del ...[user_id]`. -/
def disconnect (r : Registry) (u : Nat) : Registry :=
  r.filter (fun e => !(e.1 == u))

/-- `ConnectionManager.is_user_online`: `user_id in self.active_connections`. -/
def is_user_online (r : Registry) (u : Nat) : Bool :=
  r.any (fun e => e.1 == u)

/-- Dictionary lookup `self.active_connections[user_id]`, as used inside
`send_personal_message`. -/
def lookup (r : Registry) (u : Nat) : Option Nat :=
  (r.find? (fun e => e.1 == u)).map (fun e => e.2)

/-- `ConnectionManager.send_personal_message`: if the user has an entry,
push on its channel (the push may raise).  Returns the events and
whether control returned normally (`false` = an exception escaped). -/
def send_personal_message (r : Registry) (fails : Nat → Bool) (p : Payload)
    (u : Nat) : List Event × Bool :=
  match lookup r u with
  | some ch => ([Event.push ch p (!fails ch)], !fails ch)
  | none => ([], true)

/-- The `for connection in self.active_connections.values()` loop of
`ConnectionManager.broadcast` over the snapshot of channel handles: a
raising push aborts the loop and the exception escapes. -/
def broadcastAux (chans : List Nat) (fails : Nat → Bool) (p : Payload) :
    List Event × Bool :=
  match chans with
  | [] => ([], true)
  | ch :: rest =>
    if fails ch then ([Event.push ch p false], false)
    else
      let r := broadcastAux rest fails p
      (Event.push ch p true :: r.1, r.2)

/-- `ConnectionManager.broadcast`. -/
def broadcast (r : Registry) (fails : Nat → Bool) (p : Payload) :
    List Event × Bool :=
  broadcastAux (r.map (fun e => e.2)) fails p

/-- `service.create_chat_message`: build the row from the sender and the
payload (`is_read` defaults to `false`), add it to the session, flush
(the store assigns `id` and `created_at`).  The fresh id is modelled as
`length + 1` and the timestamp is the store clock `now`. -/
def create_chat_message (msgs : List Message) (sender_id : Nat)
    (message_data : MessageCreate) (now : Nat) : Message × List Message :=
  let m : Message :=
    { id := msgs.length + 1
      sender_id := sender_id
      recipient_id := message_data.recipient_id
      content := message_data.content
      is_read := false
      created_at := now }
  (m, msgs ++ [m])

/-- The `ORDER BY created_at DESC` ordering: newest first. -/
def newestFirst (m1 m2 : Message) : Prop :=
  m2.created_at ≤ m1.created_at

instance : DecidableRel newestFirst :=
  fun m1 m2 => inferInstanceAs (Decidable (m2.created_at ≤ m1.created_at))

instance : IsTotal Message newestFirst :=
  ⟨fun a b => Nat.le_total b.created_at a.created_at⟩

instance : IsTrans Message newestFirst :=
  ⟨fun _ _ _ h1 h2 => Nat.le_trans h2 h1⟩

/-- The store's `ORDER BY created_at DESC`, as a deterministic sort. -/
def sortDesc (msgs : List Message) : List Message :=
  List.insertionSort newestFirst msgs

/-- `service.get_chat_history`: select both directions of the pair,
order newest first, apply `OFFSET`/`LIMIT`, then reverse into
chronological order (`messages[::-1]`). -/
def get_chat_history (msgs : List Message) (user_id other_user_id : Nat)
    (limit offset : Nat) : List Message :=
  let selected := msgs.filter (fun m =>
    (m.sender_id == user_id && m.recipient_id == some other_user_id) ||
    (m.sender_id == other_user_id && m.recipient_id == some user_id))
  (((sortDesc selected).drop offset).take limit).reverse

/-- `service.mark_messages_as_read`: `UPDATE ... SET is_read = true`
on the unread rows from `sender_id` to `recipient_id`. -/
def mark_messages_as_read (msgs : List Message)
    (recipient_id sender_id : Nat) : List Message :=
  msgs.map (fun m =>
    if m.sender_id == sender_id && m.recipient_id == some recipient_id
        && !m.is_read then
      { m with is_read := true }
    else m)

/-- The `GET /chat/history/{other_user_id}` endpoint (`router.py`):
`limit` is validated by `Query(50, ge=1, le=100)` (out-of-range requests
are rejected), the page is fetched, then the fetched direction is marked
read and committed.  Returns the response page and the updated store. -/
def get_history_endpoint (msgs : List Message) (current_user other_user : Nat)
    (limit offset : Nat) : Option (List Message × List Message) :=
  if 1 ≤ limit ∧ limit ≤ 100 then
    some (get_chat_history msgs current_user other_user limit offset,
          mark_messages_as_read msgs current_user other_user)
  else
    none

/-- Conversation info accumulated per partner by
`service.get_recent_conversations`. -/
structure ConvInfo where
  last_message : String
  last_message_time : Nat
  unread_count : Nat
deriving DecidableEq

/-- `partner_id = msg.recipient_id if msg.sender_id == user_id else msg.sender_id`. -/
def partnerOf (user_id : Nat) (m : Message) : Option Nat :=
  if m.sender_id == user_id then m.recipient_id else some m.sender_id

/-- `partners[partner_id]["unread_count"] += 1` on the entry keyed `p`. -/
def bumpUnread (p : Nat) (ps : List (Nat × ConvInfo)) : List (Nat × ConvInfo) :=
  ps.map (fun e =>
    if e.1 == p then
      (e.1, ⟨e.2.last_message, e.2.last_message_time, e.2.unread_count + 1⟩)
    else e)

/-- The body of the `for msg in messages` loop of
`service.get_recent_conversations`: skip broadcasts, create the partner
entry on first sight (messages arrive newest first, so the first sight
is the most recent message), count unread messages addressed to the
user. -/
def addMsg (user_id : Nat) (ps : List (Nat × ConvInfo)) (m : Message) :
    List (Nat × ConvInfo) :=
  match partnerOf user_id m with
  | none => ps
  | some p =>
    let ps1 :=
      if ps.any (fun e => e.1 == p) then ps
      else ps ++ [(p, ⟨m.content, m.created_at, 0⟩)]
    if m.recipient_id == some user_id && !m.is_read then bumpUnread p ps1
    else ps1

/-- The `WHERE sender_id = u OR recipient_id = u` selection of
`get_recent_conversations`. -/
def involves (user_id : Nat) (m : Message) : Bool :=
  m.sender_id == user_id || m.recipient_id == some user_id

/-- `service.get_recent_conversations`: scan all messages involving the
user newest first, group by partner, then load each partner's user row
(partners without a user row are dropped) producing
`(user_id, full_name, info)` triples in partner first-seen order. -/
def get_recent_conversations (users : List UserRec) (msgs : List Message)
    (user_id : Nat) : List (Nat × String × ConvInfo) :=
  let ordered := sortDesc (msgs.filter (involves user_id))
  let partners := ordered.foldl (addMsg user_id) []
  partners.filterMap (fun e =>
    (users.find? (fun u => u.id == e.1)).map (fun u => (u.id, u.full_name, e.2)))

/-- Python truthiness of `db_msg.recipient_id` in
`if db_msg.recipient_id:` — `None` and `0` are both falsy. -/
def pythonTruthy : Option Nat → Bool
  | none => false
  | some n => !(n == 0)

/-- Step 3 of the websocket loop body (`# 3. Deliver real-time`): the
branch on `if db_msg.recipient_id:` followed by the online check and the
unicast push, else the broadcast. -/
def dispatchStep (registry : Registry) (fails : Nat → Bool)
    (recipient : Option Nat) (payload : Payload) : List Event × Bool :=
  if pythonTruthy recipient then
    let rid := recipient.getD 0
    if is_user_online registry rid then
      send_personal_message registry fails payload rid
    else ([], true)
  else
    broadcast registry fails payload

/-- One iteration of the `while True` receive loop of
`websocket_endpoint` for a session of user `uid` (display name `name`):
`inbound = none` models a frame that failed JSON parsing or pydantic
validation, `some mc` a valid payload.  A valid payload is persisted and
committed, the response payload is built from the persisted row, and the
dispatch runs; any exception raised inside the body is caught by the
inner `except`, which sends the generic error payload to the sender. -/
def websocketStep (msgs : List Message) (registry : Registry) (uid : Nat)
    (name : String) (inbound : Option MessageCreate) (now : Nat)
    (fails : Nat → Bool) : List Message × List Event :=
  match inbound with
  | none => (msgs, [Event.errorToSender])
  | some mc =>
    let r := create_chat_message msgs uid mc now
    let dbMsg := r.1
    let payload : Payload :=
      { id := dbMsg.id
        sender_id := uid
        sender_name := name
        content := dbMsg.content
        recipient_id := dbMsg.recipient_id
        created_at := dbMsg.created_at }
    let d := dispatchStep registry fails dbMsg.recipient_id payload
    (r.2, Event.persist dbMsg :: Event.commit ::
      (d.1 ++ if d.2 then [] else [Event.errorToSender]))

/-- The pair predicate of the spec's `get_history` contract: the
`(sender, recipient)` pair matches either direction between `a` and `b`. -/
def betweenPair (a b : Nat) (m : Message) : Bool :=
  (m.sender_id == a && m.recipient_id == some b) ||
  (m.sender_id == b && m.recipient_id == some a)

/-- Modelled from the spec's wording of the `get_history` contract: the
page of size `limit` at `offset` from the newest-first ordering of the
messages matching either direction of the pair, reversed into
chronological order. -/
def history_spec (msgs : List Message) (a b : Nat) (limit offset : Nat) :
    List Message :=
  (((sortDesc (msgs.filter (betweenPair a b))).drop offset).take limit).reverse

/-- The full unpaginated history between `a` and `b`, in chronological
order (the `offset = 0`, no-limit reading of `get_chat_history`). -/
def historyAll (msgs : List Message) (a b : Nat) : List Message :=
  (sortDesc (msgs.filter (betweenPair a b))).reverse

/-- Consecutive history pages at fixed page size `pageSize`, fetched in
increasing-offset order. -/
def historyPages (msgs : List Message) (a b : Nat) (pageSize pages : Nat) :
    List (List Message) :=
  (List.range pages).map (fun k => get_chat_history msgs a b pageSize (k * pageSize))

/-- The pair predicate for conversation summaries: a non-broadcast
message between `u` and partner `p`. -/
def pairRelated (u p : Nat) (m : Message) : Bool :=
  (m.sender_id == u && m.recipient_id == some p) ||
  (m.sender_id == p && m.recipient_id == some u)

/-- A message addressed to `u` and still unread. -/
def unreadFlag (u : Nat) (m : Message) : Bool :=
  m.recipient_id == some u && !m.is_read

/-- Number of unread messages addressed to `u` in `l`. -/
def unreadOf (u : Nat) (l : List Message) : Nat :=
  (l.filter (unreadFlag u)).length

/-- The messages of `l` whose derived conversation partner is `p`. -/
def relTo (u p : Nat) (l : List Message) : List Message :=
  l.filter (fun m => partnerOf u m == some p)

/-- A presence-registry operation, for stating the presence contract
over arbitrary operation sequences. -/
inductive RegOp where
  | reg (u ch : Nat)
  | dereg (u : Nat)
deriving DecidableEq

/-- Interpret one registry operation. -/
def applyOp (r : Registry) : RegOp → Registry
  | RegOp.reg u ch => connect r u ch
  | RegOp.dereg u => disconnect r u

/-- Three private messages between users 1 and 2 with distinct
timestamps, used as concrete pagination scenarios. -/
def msgs3 : List Message :=
  [ { id := 1, sender_id := 1, recipient_id := some 2, content := "a",
      is_read := false, created_at := 1 },
    { id := 2, sender_id := 2, recipient_id := some 1, content := "b",
      is_read := false, created_at := 2 },
    { id := 3, sender_id := 1, recipient_id := some 2, content := "c",
      is_read := true, created_at := 3 } ]

/-- A two-user table for concrete conversation scenarios. -/
def exUsers : List UserRec :=
  [ { id := 1, full_name := "Alice" }, { id := 2, full_name := "Bob" } ]

/-! ## Presence registry lemmas -/

theorem find?_append_of_none {α : Type} (p : α → Bool) (l1 l2 : List α)
    (h : l1.find? p = none) : (l1 ++ l2).find? p = l2.find? p := by
  induction l1 with
  | nil => rfl
  | cons a t ih =>
    cases hp : p a with
    | true =>
      rw [List.find?_cons] at h
      simp [hp] at h
    | false =>
      rw [List.find?_cons] at h
      rw [List.cons_append, List.find?_cons]
      simp only [hp] at h ⊢
      exact ih h

theorem is_user_online_eq (r : Registry) (u : Nat) :
    is_user_online r u = (lookup r u).isSome := by
  induction r with
  | nil => rfl
  | cons e t ih =>
    by_cases h : e.1 == u
    · simp [is_user_online, lookup, List.find?_cons, h]
    · simp only [Bool.not_eq_true] at h
      simp only [is_user_online, lookup, List.any_cons, List.find?_cons, h,
        Bool.false_or] at *
      exact ih

theorem lookup_connect_self (r : Registry) (u c : Nat) :
    lookup (connect r u c) u = some c := by
  unfold connect
  by_cases h : r.any (fun e => e.1 == u)
  · rw [if_pos h]
    obtain ⟨e0, he0, hp⟩ := List.any_eq_true.mp h
    have hfind : (r.find? (fun e => e.1 == u)).isSome := by
      rw [List.find?_isSome]; exact ⟨e0, he0, hp⟩
    obtain ⟨e1, he1⟩ := Option.isSome_iff_exists.mp hfind
    have hkey := List.find?_some he1
    unfold lookup
    rw [List.find?_map]
    have hpred : ((fun e : Nat × Nat => e.1 == u) ∘
        (fun e => if e.1 == u then (u, c) else e)) =
        (fun e : Nat × Nat => e.1 == u) := by
      funext e
      by_cases he : e.1 = u
      · simp [he]
      · simp [he]
    rw [hpred, he1]
    have h1 : e1.1 = u := by simpa using hkey
    simp [h1]
  · rw [if_neg h]
    have hnone : r.find? (fun e => e.1 == u) = none := by
      rw [List.find?_eq_none]
      intro x hx hpx
      exact h (List.any_eq_true.mpr ⟨x, hx, hpx⟩)
    unfold lookup
    rw [find?_append_of_none _ _ _ hnone]
    simp [List.find?_cons]

theorem lookup_disconnect_self (r : Registry) (u : Nat) :
    lookup (disconnect r u) u = none := by
  unfold lookup disconnect
  rw [List.find?_eq_none.mpr]
  · rfl
  · intro e he hp
    have := (List.mem_filter.mp he).2
    rw [hp] at this
    simp at this

theorem is_user_online_disconnect (r : Registry) (u : Nat) :
    is_user_online (disconnect r u) u = false := by
  rw [is_user_online_eq, lookup_disconnect_self]
  rfl

theorem disconnect_disconnect (r : Registry) (u : Nat) :
    disconnect (disconnect r u) u = disconnect r u := by
  unfold disconnect
  rw [List.filter_filter]
  apply List.filter_congr
  intro e _
  cases he : e.1 == u <;> simp [he]

theorem is_user_online_connect_self (r : Registry) (u c : Nat) :
    is_user_online (connect r u c) u = true := by
  rw [is_user_online_eq, lookup_connect_self]
  rfl

theorem is_user_online_connect_other (r : Registry) (u v c : Nat) :
    is_user_online r u = true → is_user_online (connect r v c) u = true := by
  intro h
  by_cases huv : v = u
  · subst huv; exact is_user_online_connect_self r v c
  · unfold connect
    by_cases hv : r.any (fun e => e.1 == v)
    · rw [if_pos hv]
      unfold is_user_online at *
      rw [List.any_map]
      have hfun : ((fun e : Nat × Nat => e.1 == u) ∘
          (fun e => if e.1 == v then (v, c) else e)) =
          (fun e : Nat × Nat => e.1 == u) := by
        funext e
        simp only [Function.comp_apply]
        cases he : (e.1 == v) with
        | true =>
          have h1 : e.1 = v := by simpa using he
          simp [he, h1]
        | false => simp [he]
      rw [hfun]
      exact h
    · rw [if_neg hv]
      unfold is_user_online at *
      rw [List.any_append, h]
      rfl

theorem is_user_online_disconnect_other (r : Registry) (u v : Nat)
    (huv : v ≠ u) (h : is_user_online r u = true) :
    is_user_online (disconnect r v) u = true := by
  unfold is_user_online disconnect at *
  obtain ⟨e, he, hp⟩ := List.any_eq_true.mp h
  apply List.any_eq_true.mpr
  refine ⟨e, List.mem_filter.mpr ⟨he, ?_⟩, hp⟩
  have hu : e.1 = u := by simpa using hp
  simp only [hu, Bool.not_eq_true']
  simpa using fun h2 : u = v => huv h2.symm

theorem is_user_online_foldl (u : Nat) (ops : List RegOp) :
    ∀ r : Registry, is_user_online r u = true →
    (∀ op ∈ ops, op ≠ RegOp.dereg u) →
    is_user_online (ops.foldl applyOp r) u = true := by
  induction ops with
  | nil => intro r h _; exact h
  | cons op rest ih =>
    intro r h hops
    rw [List.foldl_cons]
    apply ih
    · cases op with
      | reg v c => exact is_user_online_connect_other r u v c h
      | dereg v =>
        have hv : v ≠ u := by
          intro hvu
          exact hops (RegOp.dereg v) (List.mem_cons_self _ _) (by rw [hvu])
        exact is_user_online_disconnect_other r u v hv h
    · intro o ho
      exact hops o (List.mem_cons_of_mem _ ho)

/-- C4: the presence registry contract. After `register(u, c)` and any
further operations none of which is `deregister(u)`, `is_online(u)` is
`true`; after `deregister(u)` it is `false`; a second `deregister(u)` in
a row leaves the registry unchanged; and a second `register` for the
same user overwrites the entry, so `lookup(u)` returns the most recently
registered channel. -/
theorem presence_registry_contract (r : Registry) (u c c2 : Nat)
    (ops : List RegOp) (hops : ∀ op ∈ ops, op ≠ RegOp.dereg u) :
    is_user_online (ops.foldl applyOp (connect r u c)) u = true ∧
    is_user_online (disconnect r u) u = false ∧
    disconnect (disconnect r u) u = disconnect r u ∧
    lookup (connect (connect r u c) u c2) u = some c2 := by
  refine ⟨?_, is_user_online_disconnect r u, disconnect_disconnect r u,
    lookup_connect_self _ u c2⟩
  exact is_user_online_foldl u ops (connect r u c)
    (is_user_online_connect_self r u c) hops

/-- Witness for C4 at a concrete registry and operation list. -/
theorem presence_registry_contract_witness :
    (∀ op ∈ [RegOp.reg 5 6, RegOp.dereg 5], op ≠ RegOp.dereg 1) ∧
    (is_user_online ([RegOp.reg 5 6, RegOp.dereg 5].foldl applyOp
        (connect [(9, 90)] 1 10)) 1 = true ∧
      is_user_online (disconnect [(9, 90)] 1) 1 = false ∧
      disconnect (disconnect [(9, 90)] 1) 1 = disconnect [(9, 90)] 1 ∧
      lookup (connect (connect [(9, 90)] 1 10) 1 11) 1 = some 11) :=
  ⟨by decide, presence_registry_contract [(9, 90)] 1 10 11
    [RegOp.reg 5 6, RegOp.dereg 5] (by decide)⟩

/-- C10: session close deregisters by user id only.  If user `u`
registers channel `c1`, then a second connection registers channel `c2`
(overwriting the entry), and the first session's close path then runs
`disconnect(u)`, the registry entry holding the second, still-live
channel `c2` is removed: `is_online(u)` becomes `false` and no channel
remains registered for `u`. -/
theorem disconnect_by_user_only (r : Registry) (u c1 c2 : Nat) :
    lookup (connect (connect r u c1) u c2) u = some c2 ∧
    is_user_online (disconnect (connect (connect r u c1) u c2) u) u = false ∧
    lookup (disconnect (connect (connect r u c1) u c2) u) u = none :=
  ⟨lookup_connect_self _ u c2,
   is_user_online_disconnect _ u,
   lookup_disconnect_self _ u⟩

/-! ## Read-state idempotence -/

theorem mark_read_idem_list (msgs : List Message) (r s : Nat) :
    mark_messages_as_read (mark_messages_as_read msgs r s) r s =
      mark_messages_as_read msgs r s := by
  unfold mark_messages_as_read
  rw [List.map_map]
  congr 1
  funext m
  simp only [Function.comp_apply]
  by_cases hc : (m.sender_id == s && m.recipient_id == some r && !m.is_read) = true
  · rw [if_pos hc]
    simp
  · simp only [if_neg hc]

/-- C7: `mark_read` is idempotent — a second call in a row leaves the
store unchanged — and after one call every message from `s` to `r` in
the store is read. -/
theorem mark_read_idempotent (msgs : List Message) (r s : Nat) :
    mark_messages_as_read (mark_messages_as_read msgs r s) r s =
      mark_messages_as_read msgs r s ∧
    ∀ m ∈ mark_messages_as_read msgs r s,
      m.sender_id = s → m.recipient_id = some r → m.is_read = true := by
  refine ⟨mark_read_idem_list msgs r s, ?_⟩
  intro m hm hs hr
  unfold mark_messages_as_read at hm
  obtain ⟨m0, hm0, hfm⟩ := List.mem_map.mp hm
  by_cases hc : (m0.sender_id == s && m0.recipient_id == some r && !m0.is_read) = true
  · rw [if_pos hc] at hfm
    rw [← hfm]
  · rw [if_neg hc] at hfm
    subst hfm
    simp only [hs, hr, BEq.refl, Bool.true_and, Bool.not_eq_true'] at hc
    simpa using hc

/-- Witness for C7 at a concrete store. -/
theorem mark_read_idempotent_witness :
    mark_messages_as_read (mark_messages_as_read msgs3 1 2) 1 2 =
      mark_messages_as_read msgs3 1 2 ∧
    ∀ m ∈ mark_messages_as_read msgs3 1 2,
      m.sender_id = 2 → m.recipient_id = some 1 → m.is_read = true :=
  mark_read_idempotent msgs3 1 2

/-! ## Pagination -/

theorem reverse_chunks_join {α : Type} (L : Nat) :
    ∀ (m : Nat) (l : List α), l.length ≤ m * L →
    (((List.range m).map (fun k => ((l.drop (k * L)).take L).reverse)).reverse).flatten =
      l.reverse := by
  intro m
  induction m with
  | zero =>
    intro l hl
    have hnil : l = [] := List.eq_nil_of_length_eq_zero (by omega)
    subst hnil
    rfl
  | succ n ih =>
    intro l hl
    rw [List.range_succ_eq_map, List.map_cons, List.map_map]
    have hfun : ((fun k => ((l.drop (k * L)).take L).reverse) ∘ Nat.succ) =
        (fun k => (((l.drop L).drop (k * L)).take L).reverse) := by
      funext k
      simp only [Function.comp_apply]
      rw [List.drop_drop, Nat.succ_mul, Nat.add_comm (k * L) L]
    rw [hfun]
    rw [List.reverse_cons, List.flatten_append]
    have hdl : (l.drop L).length ≤ n * L := by
      rw [List.length_drop]
      rw [Nat.succ_mul] at hl
      omega
    rw [ih (l.drop L) hdl]
    simp only [Nat.zero_mul, List.drop_zero, List.flatten_cons, List.flatten_nil,
      List.append_nil]
    rw [← List.reverse_append, List.take_append_drop]

/-- C5 counterexample: with three messages between users 1 and 2 and
page size 2, concatenating the two pages in fetch order (offsets 0 then
2) yields the newest page's block first, which differs from the
unpaginated chronological history. -/
theorem pagination_fetch_order_cex :
    (historyPages msgs3 1 2 2 2).flatten ≠ historyAll msgs3 1 2 := by decide

/-- C5 as amended: pages of fixed size `L` at offsets `0, L, 2L, ...`
covering the full range, concatenated in reverse fetch order
(decreasing offset), equal the unpaginated history in chronological
order. -/
theorem pagination_reverse_concat (msgs : List Message) (a b : Nat) (L m : Nat)
    (hcov : (msgs.filter (betweenPair a b)).length ≤ m * L) :
    ((historyPages msgs a b L m).reverse).flatten = historyAll msgs a b := by
  have hlen : (sortDesc (msgs.filter (betweenPair a b))).length ≤ m * L := by
    unfold sortDesc
    rw [(List.perm_insertionSort newestFirst _).length_eq]
    exact hcov
  exact reverse_chunks_join L m (sortDesc (msgs.filter (betweenPair a b))) hlen

/-- Witness for C5's amended statement at a concrete store. -/
theorem pagination_reverse_concat_witness :
    (msgs3.filter (betweenPair 1 2)).length ≤ 2 * 2 ∧
    ((historyPages msgs3 1 2 2 2).reverse).flatten = historyAll msgs3 1 2 :=
  ⟨by decide, pagination_reverse_concat msgs3 1 2 2 2 (by decide)⟩

/-! ## Broadcast delivery -/

theorem broadcastAux_eq (chans : List Nat) (fails : Nat → Bool) (p : Payload) :
    broadcastAux chans fails p =
      ((chans.takeWhile (fun ch => !fails ch)).map
          (fun ch => Event.push ch p true) ++
        ((chans.dropWhile (fun ch => !fails ch)).take 1).map
          (fun ch => Event.push ch p false),
       (chans.dropWhile (fun ch => !fails ch)).isEmpty) := by
  induction chans with
  | nil => rfl
  | cons ch rest ih =>
    cases hf : fails ch with
    | true => simp [broadcastAux, hf, List.takeWhile_cons, List.dropWhile_cons]
    | false => simp [broadcastAux, hf, List.takeWhile_cons, List.dropWhile_cons, ih]

/-- C2 as amended: a failing push inside `broadcast` is not isolated.
The channels that precede the first failing channel in the snapshot's
iteration order each receive the payload, the first failing channel's
push raises, and the loop aborts, so no later channel receives anything;
the exception escapes (second component `false`) whenever a failing
channel was reached. -/
theorem broadcast_aborts_at_first_failure (r : Registry) (fails : Nat → Bool)
    (p : Payload) :
    broadcast r fails p =
      (((r.map (fun e => e.2)).takeWhile (fun ch => !fails ch)).map
          (fun ch => Event.push ch p true) ++
        (((r.map (fun e => e.2)).dropWhile (fun ch => !fails ch)).take 1).map
          (fun ch => Event.push ch p false),
       ((r.map (fun e => e.2)).dropWhile (fun ch => !fails ch)).isEmpty) :=
  broadcastAux_eq _ fails p

/-- C2 counterexample: users 1 and 2 are registered on channels 10 and
20; the push on channel 10 fails, and channel 20 — a registered channel
other than the failing one — does not receive the payload. -/
theorem broadcast_failure_not_isolated_cex :
    Event.push 20 ⟨1, 3, "A", "hi", none, 0⟩ true ∉
      (broadcast [(1, 10), (2, 20)] (fun ch => ch == 10)
        ⟨1, 3, "A", "hi", none, 0⟩).1 := by decide

theorem broadcastAux_no_failures (chans : List Nat) (p : Payload) :
    broadcastAux chans (fun _ => false) p =
      (chans.map (fun ch => Event.push ch p true), true) := by
  induction chans with
  | nil => rfl
  | cons ch rest ih => simp [broadcastAux, ih]

theorem broadcastAux_push_payload (chans : List Nat) (fails : Nat → Bool)
    (p : Payload) (e : Event) (he : e ∈ (broadcastAux chans fails p).1) :
    ∃ ch ok, e = Event.push ch p ok := by
  induction chans with
  | nil => simp [broadcastAux] at he
  | cons ch rest ih =>
    unfold broadcastAux at he
    by_cases hf : fails ch = true
    · rw [if_pos hf] at he
      simp at he
      exact ⟨ch, false, he⟩
    · rw [if_neg hf] at he
      simp at he
      rcases he with he | he
      · exact ⟨ch, true, he⟩
      · exact ih he

theorem dispatchStep_push_payload (registry : Registry) (fails : Nat → Bool)
    (rcp : Option Nat) (p : Payload) (e : Event)
    (he : e ∈ (dispatchStep registry fails rcp p).1) :
    ∃ ch ok, e = Event.push ch p ok := by
  unfold dispatchStep at he
  by_cases ht : pythonTruthy rcp = true
  · rw [if_pos ht] at he
    by_cases ho : is_user_online registry (rcp.getD 0) = true
    · rw [if_pos ho] at he
      unfold send_personal_message at he
      cases hl : lookup registry (rcp.getD 0) with
      | some ch =>
        rw [hl] at he
        simp at he
        exact ⟨ch, !fails ch, he⟩
      | none => rw [hl] at he; simp at he
    · rw [if_neg ho] at he; simp at he
  · rw [if_neg ht] at he
    unfold broadcast at he
    exact broadcastAux_push_payload _ fails p e he

/-! ## Connection session ordering and failure handling -/

/-- C1: for every valid inbound payload handled by an active session,
the loop iteration appends exactly one row with the payload's content,
the session's sender and the payload's recipient, regardless of any
dispatch failure; the persist event is at position 0 and the commit at
position 1 of the iteration's event trace, and every dispatch attempt
(push event) sits strictly after them and carries a payload whose
content, sender and recipient match the persisted row. -/
theorem websocket_persist_before_dispatch (msgs : List Message)
    (registry : Registry) (uid : Nat) (name : String) (mc : MessageCreate)
    (now : Nat) (fails : Nat → Bool) :
    ∃ rec : Message,
      rec.sender_id = uid ∧ rec.recipient_id = mc.recipient_id ∧
      rec.content = mc.content ∧ rec.is_read = false ∧
      (websocketStep msgs registry uid name (some mc) now fails).1 =
        msgs ++ [rec] ∧
      (websocketStep msgs registry uid name (some mc) now fails).2[0]? =
        some (Event.persist rec) ∧
      (websocketStep msgs registry uid name (some mc) now fails).2[1]? =
        some Event.commit ∧
      ∀ j ch p ok,
        (websocketStep msgs registry uid name (some mc) now fails).2[j]? =
          some (Event.push ch p ok) →
        2 ≤ j ∧ p.content = rec.content ∧ p.sender_id = rec.sender_id ∧
          p.recipient_id = rec.recipient_id := by
  have hshape : (websocketStep msgs registry uid name (some mc) now fails).2 =
      Event.persist ⟨msgs.length + 1, uid, mc.recipient_id, mc.content, false, now⟩ ::
      Event.commit ::
      ((dispatchStep registry fails mc.recipient_id
          ⟨msgs.length + 1, uid, name, mc.content, mc.recipient_id, now⟩).1 ++
        (if (dispatchStep registry fails mc.recipient_id
            ⟨msgs.length + 1, uid, name, mc.content, mc.recipient_id, now⟩).2 then []
         else [Event.errorToSender])) := rfl
  refine ⟨⟨msgs.length + 1, uid, mc.recipient_id, mc.content, false, now⟩,
    rfl, rfl, rfl, rfl, rfl, by simp [hshape], by simp [hshape], ?_⟩
  intro j ch p ok hj
  rw [hshape] at hj
  cases j with
  | zero =>
    rw [List.getElem?_cons_zero] at hj
    simp at hj
  | succ j1 =>
    cases j1 with
    | zero =>
      rw [List.getElem?_cons_succ, List.getElem?_cons_zero] at hj
      simp at hj
    | succ j2 =>
      rw [List.getElem?_cons_succ, List.getElem?_cons_succ] at hj
      have hmem := List.getElem?_mem hj
      rcases List.mem_append.mp hmem with hmem | hmem
      · obtain ⟨ch2, ok2, hpe⟩ :=
          dispatchStep_push_payload _ fails _ _ _ hmem
        cases hpe
        exact ⟨by omega, rfl, rfl, rfl⟩
      · by_cases hd : (dispatchStep registry fails mc.recipient_id
            ⟨msgs.length + 1, uid, name, mc.content, mc.recipient_id, now⟩).2 = true
        · rw [if_pos hd] at hmem
          simp at hmem
        · rw [if_neg hd] at hmem
          simp at hmem

/-- Witness for C1 at a concrete session state where the dispatch push
fails. -/
theorem websocket_persist_before_dispatch_witness :
    ∃ rec : Message,
      rec.sender_id = 1 ∧ rec.recipient_id = some 2 ∧
      rec.content = "hi" ∧ rec.is_read = false ∧
      (websocketStep [] [(2, 20)] 1 "A" (some ⟨"hi", some 2⟩) 5
          (fun c => c == 20)).1 = [] ++ [rec] ∧
      (websocketStep [] [(2, 20)] 1 "A" (some ⟨"hi", some 2⟩) 5
          (fun c => c == 20)).2[0]? = some (Event.persist rec) ∧
      (websocketStep [] [(2, 20)] 1 "A" (some ⟨"hi", some 2⟩) 5
          (fun c => c == 20)).2[1]? = some Event.commit ∧
      ∀ j ch p ok,
        (websocketStep [] [(2, 20)] 1 "A" (some ⟨"hi", some 2⟩) 5
            (fun c => c == 20)).2[j]? = some (Event.push ch p ok) →
        2 ≤ j ∧ p.content = rec.content ∧ p.sender_id = rec.sender_id ∧
          p.recipient_id = rec.recipient_id :=
  websocket_persist_before_dispatch [] [(2, 20)] 1 "A" ⟨"hi", some 2⟩ 5
    (fun c => c == 20)

/-- C3 as amended: when the unicast recipient is registered but the
channel push fails, the message stays persisted (and is retrievable via
the pair's history), no channel receives a successful push, and the
sender's session stays up — but the failure is not silent: the inner
exception handler emits the generic error payload on the sender's own
session. -/
theorem unicast_push_failure_behavior (msgs : List Message)
    (registry : Registry) (uid : Nat) (name : String) (content : String)
    (rid : Nat) (now ch : Nat) (fails : Nat → Bool) (hrid : rid ≠ 0)
    (hch : lookup registry rid = some ch) (hf : fails ch = true) :
    (websocketStep msgs registry uid name (some ⟨content, some rid⟩) now
        fails).1 =
      msgs ++ [⟨msgs.length + 1, uid, some rid, content, false, now⟩] ∧
    (⟨msgs.length + 1, uid, some rid, content, false, now⟩ : Message) ∈
      historyAll (msgs ++ [⟨msgs.length + 1, uid, some rid, content, false, now⟩])
        uid rid ∧
    (websocketStep msgs registry uid name (some ⟨content, some rid⟩) now
        fails).2 =
      [Event.persist ⟨msgs.length + 1, uid, some rid, content, false, now⟩,
       Event.commit,
       Event.push ch ⟨msgs.length + 1, uid, name, content, some rid, now⟩ false,
       Event.errorToSender] := by
  have hrid0 : (rid == 0) = false := by simpa using hrid
  have honline : is_user_online registry rid = true := by
    rw [is_user_online_eq, hch]
    rfl
  refine ⟨rfl, ?_, ?_⟩
  · unfold historyAll
    rw [List.mem_reverse]
    unfold sortDesc
    rw [(List.perm_insertionSort newestFirst _).mem_iff]
    apply List.mem_filter.mpr
    constructor
    · exact List.mem_append_right _ (List.mem_singleton.mpr rfl)
    · simp [betweenPair]
  · have hshape : (websocketStep msgs registry uid name
        (some ⟨content, some rid⟩) now fails).2 =
        Event.persist ⟨msgs.length + 1, uid, some rid, content, false, now⟩ ::
        Event.commit ::
        ((dispatchStep registry fails (some rid)
            ⟨msgs.length + 1, uid, name, content, some rid, now⟩).1 ++
          (if (dispatchStep registry fails (some rid)
              ⟨msgs.length + 1, uid, name, content, some rid, now⟩).2 then []
           else [Event.errorToSender])) := rfl
    rw [hshape]
    have hdisp : dispatchStep registry fails (some rid)
        ⟨msgs.length + 1, uid, name, content, some rid, now⟩ =
        ([Event.push ch ⟨msgs.length + 1, uid, name, content, some rid, now⟩
            false], false) := by
      unfold dispatchStep
      rw [if_pos (by simp [pythonTruthy, hrid0])]
      simp only [Option.getD_some]
      rw [if_pos honline]
      unfold send_personal_message
      rw [hch]
      simp [hf]
    rw [hdisp]
    rfl

/-- Witness for C3's amended statement: user 2 is registered on channel
20 and a push on channel 20 fails. -/
theorem unicast_push_failure_behavior_witness :
    (2 : Nat) ≠ 0 ∧ lookup [(2, 20)] 2 = some 20 ∧
    ((fun c : Nat => c == 20) 20 = true) ∧
    ((websocketStep [] [(2, 20)] 1 "A" (some ⟨"hi", some 2⟩) 5
        (fun c => c == 20)).1 =
      [] ++ [⟨1, 1, some 2, "hi", false, 5⟩] ∧
    (⟨1, 1, some 2, "hi", false, 5⟩ : Message) ∈
      historyAll ([] ++ [⟨1, 1, some 2, "hi", false, 5⟩]) 1 2 ∧
    (websocketStep [] [(2, 20)] 1 "A" (some ⟨"hi", some 2⟩) 5
        (fun c => c == 20)).2 =
      [Event.persist ⟨1, 1, some 2, "hi", false, 5⟩, Event.commit,
       Event.push 20 ⟨1, 1, "A", "hi", some 2, 5⟩ false,
       Event.errorToSender]) :=
  ⟨by decide, rfl, rfl,
   unicast_push_failure_behavior [] [(2, 20)] 1 "A" "hi" 2 5 20
     (fun c => c == 20) (by decide) rfl rfl⟩

/-- C3 counterexample: in the concrete failing-unicast scenario the
iteration's event trace contains the error payload sent back on the
sender's session, so the failure is not silent for the sender. -/
theorem unicast_push_failure_emits_error_cex :
    Event.errorToSender ∈
      (websocketStep [] [(2, 20)] 1 "A" (some ⟨"hi", some 2⟩) 5
        (fun c => c == 20)).2 := by decide

/-- C9: an inbound payload with `recipient_id = 0` is persisted with
recipient 0, but `if db_msg.recipient_id:` treats 0 as falsy, so the
dispatch takes the broadcast branch: with no push failures every
registered channel receives the payload, instead of a unicast to user 0. -/
theorem recipient_zero_broadcast (msgs : List Message) (registry : Registry)
    (uid : Nat) (name : String) (content : String) (now : Nat) :
    (websocketStep msgs registry uid name (some ⟨content, some 0⟩) now
        (fun _ => false)).1 =
      msgs ++ [⟨msgs.length + 1, uid, some 0, content, false, now⟩] ∧
    ∀ ch ∈ registry.map (fun e => e.2),
      Event.push ch ⟨msgs.length + 1, uid, name, content, some 0, now⟩ true ∈
        (websocketStep msgs registry uid name (some ⟨content, some 0⟩) now
          (fun _ => false)).2 := by
  refine ⟨rfl, ?_⟩
  intro ch hch
  have hshape : (websocketStep msgs registry uid name (some ⟨content, some 0⟩)
      now (fun _ => false)).2 =
      Event.persist ⟨msgs.length + 1, uid, some 0, content, false, now⟩ ::
      Event.commit ::
      ((broadcastAux (registry.map (fun e => e.2)) (fun _ => false)
          ⟨msgs.length + 1, uid, name, content, some 0, now⟩).1 ++
        (if (broadcastAux (registry.map (fun e => e.2)) (fun _ => false)
            ⟨msgs.length + 1, uid, name, content, some 0, now⟩).2 then []
         else [Event.errorToSender])) := rfl
  have hshape2 : (websocketStep msgs registry uid name (some ⟨content, some 0⟩)
      now (fun _ => false)).2 =
      Event.persist ⟨msgs.length + 1, uid, some 0, content, false, now⟩ ::
      Event.commit ::
      ((registry.map (fun e => e.2)).map
        (fun c => Event.push c
          ⟨msgs.length + 1, uid, name, content, some 0, now⟩ true) ++ []) := by
    rw [hshape, broadcastAux_no_failures]
    rfl
  rw [hshape2, List.append_nil]
  apply List.mem_cons_of_mem
  apply List.mem_cons_of_mem
  exact List.mem_map.mpr ⟨ch, hch, rfl⟩

/-- Witness for C9 with two registered users (neither of them user 0). -/
theorem recipient_zero_broadcast_witness :
    (websocketStep [] [(2, 20), (3, 30)] 1 "A" (some ⟨"x", some 0⟩) 7
        (fun _ => false)).1 =
      [] ++ [⟨1, 1, some 0, "x", false, 7⟩] ∧
    ∀ ch ∈ ([(2, 20), (3, 30)] : Registry).map (fun e => e.2),
      Event.push ch ⟨1, 1, "A", "x", some 0, 7⟩ true ∈
        (websocketStep [] [(2, 20), (3, 30)] 1 "A" (some ⟨"x", some 0⟩) 7
          (fun _ => false)).2 :=
  recipient_zero_broadcast [] [(2, 20), (3, 30)] 1 "A" "x" 7

/-! ## History query correctness -/

/-- C6: for valid parameters (`1 ≤ limit ≤ 100`, `offset ≥ 0` — offsets
are naturals here), the endpoint returns the page computed by
`get_chat_history`, which equals the spec-side page: the messages whose
`(sender, recipient)` pair matches either direction between `a` and `b`,
paged newest-first by `created_at` at `offset`/`limit`, then reversed —
so every returned message is between the pair, the page is bounded by
`limit`, and the caller receives it in chronological (oldest-first)
order. -/
theorem get_history_correct (msgs : List Message) (a b : Nat)
    (limit offset : Nat) (h1 : 1 ≤ limit) (h2 : limit ≤ 100) :
    get_history_endpoint msgs a b limit offset =
      some (get_chat_history msgs a b limit offset,
        mark_messages_as_read msgs a b) ∧
    get_chat_history msgs a b limit offset =
      history_spec msgs a b limit offset ∧
    (get_chat_history msgs a b limit offset).length ≤ limit ∧
    (∀ m ∈ get_chat_history msgs a b limit offset, betweenPair a b m = true) ∧
    List.Pairwise (fun m1 m2 : Message => m1.created_at ≤ m2.created_at)
      (get_chat_history msgs a b limit offset) := by
  refine ⟨?_, rfl, ?_, ?_, ?_⟩
  · unfold get_history_endpoint
    rw [if_pos ⟨h1, h2⟩]
  · unfold get_chat_history
    rw [List.length_reverse, List.length_take]
    exact Nat.min_le_left _ _
  · intro m hm
    unfold get_chat_history at hm
    rw [List.mem_reverse] at hm
    have hsub : List.Sublist
        (((sortDesc (msgs.filter (betweenPair a b))).drop offset).take limit)
        (sortDesc (msgs.filter (betweenPair a b))) :=
      (List.take_sublist _ _).trans (List.drop_sublist _ _)
    have hm2 : m ∈ sortDesc (msgs.filter (betweenPair a b)) := hsub.mem hm
    unfold sortDesc at hm2
    rw [(List.perm_insertionSort newestFirst _).mem_iff] at hm2
    exact (List.mem_filter.mp hm2).2
  · unfold get_chat_history
    rw [List.pairwise_reverse]
    have hsorted : List.Pairwise newestFirst
        (sortDesc (msgs.filter (betweenPair a b))) :=
      List.sorted_insertionSort newestFirst _
    have hsub : List.Sublist
        (((sortDesc (msgs.filter (betweenPair a b))).drop offset).take limit)
        (sortDesc (msgs.filter (betweenPair a b))) :=
      (List.take_sublist _ _).trans (List.drop_sublist _ _)
    exact (hsorted.sublist hsub).imp (fun h => h)

/-- Witness for C6 at a concrete store and page. -/
theorem get_history_correct_witness :
    (1 ≤ 2 ∧ 2 ≤ 100) ∧
    (get_history_endpoint msgs3 1 2 2 0 =
      some (get_chat_history msgs3 1 2 2 0, mark_messages_as_read msgs3 1 2) ∧
    get_chat_history msgs3 1 2 2 0 = history_spec msgs3 1 2 2 0 ∧
    (get_chat_history msgs3 1 2 2 0).length ≤ 2 ∧
    (∀ m ∈ get_chat_history msgs3 1 2 2 0, betweenPair 1 2 m = true) ∧
    List.Pairwise (fun m1 m2 : Message => m1.created_at ≤ m2.created_at)
      (get_chat_history msgs3 1 2 2 0)) :=
  ⟨⟨by decide, by decide⟩, get_history_correct msgs3 1 2 2 0 (by decide) (by decide)⟩

/-! ## Conversation summaries: sorting and lookup lemmas -/

theorem orderedInsert_eq_cons (x : Message) (l : List Message)
    (h : ∀ z ∈ l, newestFirst x z) :
    List.orderedInsert newestFirst x l = x :: l := by
  cases l with
  | nil => rfl
  | cons z t => exact List.orderedInsert_of_le newestFirst t (h z (List.mem_cons_self z t))

theorem filter_orderedInsert (q : Message → Bool) (x : Message) :
    ∀ l : List Message, List.Pairwise newestFirst l →
    (List.orderedInsert newestFirst x l).filter q =
      if q x then List.orderedInsert newestFirst x (l.filter q)
      else l.filter q := by
  intro l
  induction l with
  | nil =>
    intro _
    cases hq : q x <;> simp [List.orderedInsert, List.filter, hq]
  | cons y t ih =>
    intro hl
    have hst : List.Pairwise newestFirst t := hl.of_cons
    have hyt : ∀ z ∈ t, newestFirst y z := (List.pairwise_cons.mp hl).1
    by_cases hr : newestFirst x y
    · rw [List.orderedInsert_of_le newestFirst t hr]
      cases hq : q x with
      | false => simp [List.filter_cons, hq]
      | true =>
        have hall : ∀ z ∈ (y :: t).filter q, newestFirst x z := by
          intro z hz
          have hz2 : z ∈ y :: t := (List.mem_filter.mp hz).1
          rcases List.mem_cons.mp hz2 with rfl | hz3
          · exact hr
          · exact Nat.le_trans (hyt z hz3) hr
        rw [if_pos rfl, orderedInsert_eq_cons x _ hall]
        simp [List.filter_cons, hq]
    · have hoi : List.orderedInsert newestFirst x (y :: t) =
          y :: List.orderedInsert newestFirst x t := by
        simp [List.orderedInsert, hr]
      rw [hoi]
      simp only [List.filter_cons, ih hst]
      cases hq : q x with
      | false => cases hqy : q y <;> simp [hqy]
      | true =>
        cases hqy : q y with
        | false => simp [hqy]
        | true =>
          have hoi2 : List.orderedInsert newestFirst x (y :: t.filter q) =
              y :: List.orderedInsert newestFirst x (t.filter q) := by
            simp [List.orderedInsert, hr]
          simp [hqy, hoi2, hr]

theorem sortDesc_filter (q : Message → Bool) (l : List Message) :
    (sortDesc l).filter q = sortDesc (l.filter q) := by
  induction l with
  | nil => rfl
  | cons x t ih =>
    unfold sortDesc at *
    rw [List.insertionSort]
    rw [filter_orderedInsert q x _ (List.sorted_insertionSort newestFirst t)]
    cases hq : q x with
    | true =>
      rw [ih]
      simp [List.filter_cons, hq, List.insertionSort]
    | false =>
      rw [ih]
      simp [List.filter_cons, hq]

theorem find?_append_left {α : Type} (p : α → Bool) (l1 l2 : List α) (e : α)
    (h : l1.find? p = some e) : (l1 ++ l2).find? p = some e := by
  induction l1 with
  | nil => simp at h
  | cons a t ih =>
    rw [List.find?_cons] at h
    rw [List.cons_append, List.find?_cons]
    cases hp : p a with
    | true => simpa [hp] using h
    | false =>
      simp only [hp] at h ⊢
      exact ih h

theorem find?_bumpUnread_self (ps : List (Nat × ConvInfo)) (p : Nat) :
    (bumpUnread p ps).find? (fun e => e.1 == p) =
      (ps.find? (fun e => e.1 == p)).map
        (fun e => (e.1, ⟨e.2.last_message, e.2.last_message_time,
          e.2.unread_count + 1⟩)) := by
  unfold bumpUnread
  rw [List.find?_map]
  have hpred : ((fun e : Nat × ConvInfo => e.1 == p) ∘
      (fun e : Nat × ConvInfo => if e.1 == p then
        (e.1, ⟨e.2.last_message, e.2.last_message_time, e.2.unread_count + 1⟩)
      else e)) = (fun e : Nat × ConvInfo => e.1 == p) := by
    funext e
    by_cases he : e.1 = p
    · simp [he]
    · simp [he]
  rw [hpred]
  cases hf : ps.find? (fun e => e.1 == p) with
  | none => rfl
  | some e =>
    have hkey : e.1 = p := by simpa using List.find?_some hf
    simp [hkey]

theorem find?_bumpUnread_ne (ps : List (Nat × ConvInfo)) (p q : Nat)
    (hpq : q ≠ p) :
    (bumpUnread p ps).find? (fun e => e.1 == q) =
      ps.find? (fun e => e.1 == q) := by
  unfold bumpUnread
  rw [List.find?_map]
  have hpred : ((fun e : Nat × ConvInfo => e.1 == q) ∘
      (fun e : Nat × ConvInfo => if e.1 == p then
        (e.1, ⟨e.2.last_message, e.2.last_message_time, e.2.unread_count + 1⟩)
      else e)) = (fun e : Nat × ConvInfo => e.1 == q) := by
    funext e
    by_cases he : e.1 = p
    · simp [he]
    · simp [he]
  rw [hpred]
  cases hf : ps.find? (fun e => e.1 == q) with
  | none => rfl
  | some e =>
    have hkey : e.1 = q := by simpa using List.find?_some hf
    have : ¬ e.1 = p := by rw [hkey]; exact hpq
    simp [this]

theorem find?_addMsg_ne (u : Nat) (ps : List (Nat × ConvInfo)) (m : Message)
    (q : Nat) (h : partnerOf u m ≠ some q) :
    (addMsg u ps m).find? (fun e => e.1 == q) =
      ps.find? (fun e => e.1 == q) := by
  cases hp : partnerOf u m with
  | none => simp [addMsg, hp]
  | some p =>
    have hpq : q ≠ p := by
      intro hqp
      exact h (by rw [hp, hqp])
    have hpqb : (p == q) = false := by simpa using Ne.symm hpq
    have happ : (ps ++ [(p, (⟨m.content, m.created_at, 0⟩ : ConvInfo))]).find?
        (fun e => e.1 == q) = ps.find? (fun e => e.1 == q) := by
      cases hf : ps.find? (fun e => e.1 == q) with
      | some e => exact find?_append_left _ ps _ e hf
      | none =>
        rw [find?_append_of_none _ ps _ hf]
        simp [List.find?_cons, hpqb]
    simp only [addMsg, hp]
    by_cases ha : (ps.any (fun e => e.1 == p)) = true
    · rw [if_pos ha]
      by_cases hflag : (m.recipient_id == some u && !m.is_read) = true
      · rw [if_pos hflag]
        exact find?_bumpUnread_ne ps p q hpq
      · rw [if_neg hflag]
    · rw [if_neg ha]
      by_cases hflag : (m.recipient_id == some u && !m.is_read) = true
      · rw [if_pos hflag]
        rw [find?_bumpUnread_ne _ p q hpq]
        exact happ
      · rw [if_neg hflag]
        exact happ

theorem find?_addMsg_self (u : Nat) (ps : List (Nat × ConvInfo)) (m : Message)
    (p : Nat) (h : partnerOf u m = some p) :
    (addMsg u ps m).find? (fun e => e.1 == p) =
      some (match ps.find? (fun e => e.1 == p) with
            | some e => (e.1, ⟨e.2.last_message, e.2.last_message_time,
                e.2.unread_count + (if unreadFlag u m then 1 else 0)⟩)
            | none => (p, ⟨m.content, m.created_at,
                (if unreadFlag u m then 1 else 0)⟩)) := by
  simp only [addMsg, h]
  by_cases ha : (ps.any (fun e => e.1 == p)) = true
  · rw [if_pos ha]
    obtain ⟨e0, he0, hp0⟩ := List.any_eq_true.mp ha
    have hfs : (ps.find? (fun e => e.1 == p)).isSome := by
      rw [List.find?_isSome]
      exact ⟨e0, he0, hp0⟩
    obtain ⟨e, hf⟩ := Option.isSome_iff_exists.mp hfs
    rw [hf]
    by_cases hflag : (m.recipient_id == some u && !m.is_read) = true
    · rw [if_pos hflag]
      rw [find?_bumpUnread_self ps p, hf]
      have hflag2 : unreadFlag u m = true := hflag
      simp [hflag2]
    · rw [if_neg hflag]
      rw [hf]
      have hflag2 : unreadFlag u m = false := by
        rw [← Bool.not_eq_true]
        exact hflag
      simp [hflag2]
  · rw [if_neg ha]
    have hfn : ps.find? (fun e => e.1 == p) = none := by
      rw [List.find?_eq_none]
      intro e he hpe
      exact ha (List.any_eq_true.mpr ⟨e, he, hpe⟩)
    have happ : (ps ++ [(p, (⟨m.content, m.created_at, 0⟩ : ConvInfo))]).find?
        (fun e => e.1 == p) =
        some (p, (⟨m.content, m.created_at, 0⟩ : ConvInfo)) := by
      rw [find?_append_of_none _ ps _ hfn]
      simp [List.find?_cons]
    rw [hfn]
    by_cases hflag : (m.recipient_id == some u && !m.is_read) = true
    · rw [if_pos hflag]
      rw [find?_bumpUnread_self _ p, happ]
      have hflag2 : unreadFlag u m = true := hflag
      simp [hflag2]
    · rw [if_neg hflag]
      rw [happ]
      have hflag2 : unreadFlag u m = false := by
        rw [← Bool.not_eq_true]
        exact hflag
      simp [hflag2]

theorem find?_foldl_addMsg (u p : Nat) :
    ∀ (l : List Message) (ps : List (Nat × ConvInfo)),
    (l.foldl (addMsg u) ps).find? (fun e => e.1 == p) =
      match ps.find? (fun e => e.1 == p) with
      | some e => some (e.1, ⟨e.2.last_message, e.2.last_message_time,
          e.2.unread_count + unreadOf u (relTo u p l)⟩)
      | none => (relTo u p l).head?.map (fun m0 =>
          (p, ⟨m0.content, m0.created_at, unreadOf u (relTo u p l)⟩)) := by
  intro l
  induction l with
  | nil =>
    intro ps
    rw [List.foldl_nil]
    cases hf : ps.find? (fun e => e.1 == p) with
    | some e => rfl
    | none => rfl
  | cons m t ih =>
    intro ps
    rw [List.foldl_cons, ih (addMsg u ps m)]
    by_cases hm : partnerOf u m = some p
    · have hmb : (partnerOf u m == some p) = true := by simpa using hm
      have hrel : relTo u p (m :: t) = m :: relTo u p t := by
        unfold relTo
        rw [List.filter_cons]
        simp [hmb]
      rw [find?_addMsg_self u ps m p hm, hrel]
      cases hf : ps.find? (fun e => e.1 == p) with
      | some e =>
        cases hflag : unreadFlag u m with
        | true =>
          simp [hflag, unreadOf, List.filter_cons, Nat.add_assoc,
            Nat.add_comm, Nat.add_left_comm]
        | false =>
          simp [hflag, unreadOf, List.filter_cons]
      | none =>
        cases hflag : unreadFlag u m with
        | true =>
          simp [hflag, unreadOf, List.filter_cons, Nat.add_assoc,
            Nat.add_comm, Nat.add_left_comm]
        | false =>
          simp [hflag, unreadOf, List.filter_cons]
    · have hmb : (partnerOf u m == some p) = false := by simpa using hm
      have hrel : relTo u p (m :: t) = relTo u p t := by
        unfold relTo
        rw [List.filter_cons]
        simp [hmb]
      rw [find?_addMsg_ne u ps m p hm, hrel]

theorem derive_eq_pairRelated (u p : Nat) (m : Message) :
    ((partnerOf u m == some p) && involves u m) = pairRelated u p m := by
  unfold partnerOf involves pairRelated
  by_cases hs : m.sender_id = u
  · rw [if_pos (by simpa using hs)]
    rw [hs]
    simp only [beq_self_eq_true, Bool.true_or, Bool.and_true, Bool.true_and]
    by_cases hup : u = p
    · subst hup
      simp
    · have hupb : (u == p) = false := by simpa using hup
      simp [hupb]
  · have hs' : (m.sender_id == u) = false := by simpa using hs
    rw [if_neg (by simp [hs'])]
    simp [hs']

theorem relTo_ordered (u p : Nat) (msgs : List Message) :
    relTo u p (sortDesc (msgs.filter (involves u))) =
      sortDesc (msgs.filter (pairRelated u p)) := by
  unfold relTo
  rw [sortDesc_filter]
  congr 1
  rw [List.filter_filter]
  apply List.filter_congr
  intro m _
  exact derive_eq_pairRelated u p m

theorem find?_conversations (users : List UserRec) (p : Nat) :
    ∀ ps : List (Nat × ConvInfo),
    ((ps.filterMap (fun e => (users.find? (fun x => x.id == e.1)).map
        (fun x => (x.id, x.full_name, e.2)))).find? (fun e => e.1 == p)) =
      match users.find? (fun x => x.id == p), ps.find? (fun e => e.1 == p) with
      | some x, some e => some (x.id, x.full_name, e.2)
      | _, _ => none := by
  intro ps
  induction ps with
  | nil => cases hu : users.find? (fun x => x.id == p) <;> rfl
  | cons e t ih =>
    rw [List.filterMap_cons]
    cases hu : users.find? (fun x => x.id == e.1) with
    | none =>
      simp only [hu, Option.map_none']
      rw [ih]
      by_cases hep : e.1 = p
      · subst hep
        rw [hu]
      · have hb : (e.1 == p) = false := by simpa using hep
        simp only [List.find?_cons, hb]
    | some x =>
      have hxid : x.id = e.1 := by simpa using List.find?_some hu
      simp only [hu, Option.map_some']
      by_cases hep : e.1 = p
      · subst hep
        have hb : (x.id == e.1) = true := by simpa using hxid
        have hbe : (e.1 == e.1) = true := by simp
        simp only [List.find?_cons, hb, hbe, hu]
      · have hb1 : (x.id == p) = false := by
          rw [hxid]
          simpa using hep
        have hb2 : (e.1 == p) = false := by simpa using hep
        simp only [List.find?_cons, hb1, hb2]
        exact ih

/-- C8: what `list_conversations` reports for a partner `p`.  The entry
for `p` exists exactly when `p` has a user row and some non-broadcast
message between `u` and `p` exists; it then carries the content and
timestamp of the most recent such message and an unread count equal to
the number of unread messages addressed to `u` from `p`.  Broadcast
messages (`recipient_id = none`) never match the pair predicate, so they
contribute to no conversation entry and to no unread count. -/
theorem conversations_characterization (users : List UserRec)
    (msgs : List Message) (u p : Nat) :
    ((get_recent_conversations users msgs u).find? (fun e => e.1 == p) =
      match users.find? (fun x => x.id == p),
            (sortDesc (msgs.filter (pairRelated u p))).head? with
       | some x, some m0 => some (x.id, x.full_name,
           (⟨m0.content, m0.created_at,
             unreadOf u (msgs.filter (pairRelated u p))⟩ : ConvInfo))
       | _, _ => none) ∧
    ∀ m : Message, m.recipient_id = none → pairRelated u p m = false := by
  constructor
  · unfold get_recent_conversations
    rw [find?_conversations users p _]
    rw [find?_foldl_addMsg u p (sortDesc (msgs.filter (involves u))) []]
    rw [relTo_ordered u p msgs]
    have hperm : unreadOf u (sortDesc (msgs.filter (pairRelated u p))) =
        unreadOf u (msgs.filter (pairRelated u p)) := by
      unfold unreadOf sortDesc
      exact ((List.perm_insertionSort newestFirst _).filter _).length_eq
    rw [hperm]
    cases hu : users.find? (fun x => x.id == p) with
    | none => cases hh : (sortDesc (msgs.filter (pairRelated u p))).head? <;> rfl
    | some x =>
      cases hh : (sortDesc (msgs.filter (pairRelated u p))).head? with
      | none => rfl
      | some m0 => rfl
  · intro m hm
    unfold pairRelated
    rw [hm]
    simp

/-- Witness for C8 at a concrete store: conversations of user 1 with
partner 2 over `msgs3`. -/
theorem conversations_characterization_witness :
    ((get_recent_conversations exUsers msgs3 1).find? (fun e => e.1 == 2) =
      match exUsers.find? (fun x => x.id == 2),
            (sortDesc (msgs3.filter (pairRelated 1 2))).head? with
       | some x, some m0 => some (x.id, x.full_name,
           (⟨m0.content, m0.created_at,
             unreadOf 1 (msgs3.filter (pairRelated 1 2))⟩ : ConvInfo))
       | _, _ => none) ∧
    ∀ m : Message, m.recipient_id = none → pairRelated 1 2 m = false :=
  conversations_characterization exUsers msgs3 1 2

end MediChat
